import Mathlib

/-!
# Verification of the ai-research-assistant core

Shallow embedding, in Lean 4, of the core components of the
`ai-research-assistant` repository:

* `src/core/orchestrator.ts` — the `DeepResearchOrchestrator` research loop,
  its `ResourceBudget` accounting, and `stopSession`;
* the Knowledge Management System (`KnowledgeManager`,
  `SimpleVectorIndex`) — entity/relation/claim upserts, evidence updates,
  cosine-similarity search;
* the Memory Architecture (`MemoryArchitecture.consolidate` and friends);
* `src/core/synthesisLayer.ts` — `RelevanceEngine.categorizeRelevance`.

Modelling conventions:
* JS `number` is modelled as `ℚ` for scores/confidences and as `ℕ` for
  counters, millisecond timestamps and sizes (all of which the code only
  ever sets to non-negative integral values);
* `Date` values are millisecond timestamps (`ℕ`) supplied explicitly;
* JS `Map` objects are modelled as lists in insertion order (a JS `Map`
  iterates in insertion order, and the code only iterates over `values()`
  or gets/sets by key);
* in-place mutation of an object found inside a collection is modelled by
  rewriting the first element of the list satisfying the same predicate
  that the lookup used;
* external collaborators declared as injected/simulated in the source
  (`retrievalSystem: any // Will be injected`, `simulateSearch`,
  `simulateContentExtraction` with comments "in real implementation, this
  would call retrieval system") are modelled as oracle inputs to the step
  function, so theorems quantify over every possible provider behaviour.
-/

set_option maxHeartbeats 2000000
set_option maxRecDepth 4000

/-! ## String helpers

Structural-recursion stand-ins for the JavaScript string operations the
code uses (`toLowerCase`, `includes`, `substring`).  They are defined on
`String.data` so that the kernel can evaluate them on literals.
-/

/-- JS `s.toLowerCase()` (for the ASCII strings the code manipulates). -/
def jsToLower (s : String) : String := ⟨s.data.map Char.toLower⟩

/-- Does `hay` start with `needle`? (helper for `containsList`). -/
def startsWithList : List Char → List Char → Bool
  | [], _ => true
  | _ :: _, [] => false
  | a :: as, b :: bs => a == b && startsWithList as bs

/-- Does the haystack contain `needle` as a contiguous run? -/
def containsList (needle : List Char) : List Char → Bool
  | [] => needle.isEmpty
  | c :: rest => startsWithList needle (c :: rest) || containsList needle rest

/-- JS `hay.includes(needle)`. -/
def jsIncludes (hay needle : String) : Bool := containsList needle.data hay.data

/-- JS `s.substring(0, n)`. -/
def jsSubstringTo (s : String) (n : ℕ) : String := ⟨s.data.take n⟩

/-- Rewrite the first element of a list satisfying `p` (models in-place
mutation of the object returned by a `find`-style lookup). -/
def updateFirst (p : α → Bool) (f : α → α) : List α → List α
  | [] => []
  | x :: xs => if p x then f x :: xs else x :: updateFirst p f xs

/-- Association-list key lookup (models JS `Map.get`). -/
def lookupKey (k : String) : List (String × String) → Option String
  | [] => none
  | (k', v) :: rest => if k' = k then some v else lookupKey k rest

/-! ## Knowledge Management System

Embedding of the `KnowledgeManager` operations cited by the spec's
KnowledgeStore contract: `storeEntities`/`findExistingEntity`/
`mergeEntities`, `storeRelations`/`findExistingRelation`, and
`updateKnowledgeWithEvidence`/`calculateClaimConfidence`.
-/

namespace Knowledge

/-- The `KnowledgeEntity.type` union from the source. -/
inductive EntityType
  | concept | person | organization | location | event | document | claim
  deriving DecidableEq, Repr

/-- The `KnowledgeEntity` (fields the stored operations read or write;
`properties: Map<string, any>` is modelled as an insertion-ordered
association list with opaque `String` payloads). -/
structure KnowledgeEntity where
  id : String
  type : EntityType
  name : String
  description : String
  properties : List (String × String)
  confidence : ℚ
  sources : List String
  created : ℕ
  lastUpdated : ℕ
  deriving DecidableEq, Repr

/-- The `KnowledgeRelation` (the `relationType` string-literal union is kept
as a `String`). -/
structure KnowledgeRelation where
  id : String
  sourceEntityId : String
  targetEntityId : String
  relationType : String
  strength : ℚ
  confidence : ℚ
  evidence : List String
  created : ℕ
  deriving DecidableEq, Repr

/-- The `Evidence` attached to a claim. -/
structure Evidence where
  id : String
  documentId : String
  snippet : String
  relevanceScore : ℚ
  credibilityScore : ℚ
  extractedAt : ℕ
  deriving DecidableEq, Repr

/-- The `KnowledgeClaim.verificationStatus` union. -/
inductive VerificationStatus
  | verified | disputed | unverified | false
  deriving DecidableEq, Repr

/-- The `KnowledgeClaim` (fields read/written by the evidence-update path). -/
structure KnowledgeClaim where
  id : String
  statement : String
  entities : List String
  confidence : ℚ
  evidence : List Evidence
  contradictions : List String
  verificationStatus : VerificationStatus
  deriving DecidableEq, Repr

/-- The match predicate of `findExistingEntity`: case-insensitive name
equality plus exact type equality. -/
def entityMatches (e : KnowledgeEntity) (existing : KnowledgeEntity) : Bool :=
  jsToLower existing.name == jsToLower e.name && existing.type == e.type

/-- The `KnowledgeManager.findExistingEntity`: first entity (in `Map`
insertion order) whose lowercased name and type coincide with the
candidate's. -/
def findExistingEntity (graph : List KnowledgeEntity) (e : KnowledgeEntity) :
    Option KnowledgeEntity :=
  graph.find? (entityMatches e)

/-- The sequential property-merge loop of `mergeEntities`: each new
property key is added only when the accumulated map lacks it. -/
def mergeProps (existing newProps : List (String × String)) :
    List (String × String) :=
  newProps.foldl
    (fun acc kv => if acc.any (fun p => p.1 == kv.1) then acc else acc ++ [kv])
    existing

/-- The `KnowledgeManager.mergeEntities existing newEntity sourceId` (the
`new Date()` written to `lastUpdated` is the explicit `now`). -/
def mergeEntities (existing newEntity : KnowledgeEntity) (sourceId : String)
    (now : ℕ) : KnowledgeEntity :=
  { existing with
    properties := mergeProps existing.properties newEntity.properties
    confidence :=
      (existing.confidence * existing.sources.length + newEntity.confidence) /
        (existing.sources.length + 1)
    sources := existing.sources ++ [sourceId]
    lastUpdated := now }

/-- One pass of the `storeEntities` loop for a single entity: merge into
the first `(name, type)` match, else insert as new (pushing the source
document id first). -/
def storeEntity (graph : List KnowledgeEntity) (e : KnowledgeEntity)
    (sourceDocumentId : String) (now : ℕ) : List KnowledgeEntity :=
  match findExistingEntity graph e with
  | some _ =>
      updateFirst (entityMatches e) (fun ex => mergeEntities ex e sourceDocumentId now) graph
  | none => graph ++ [{ e with sources := e.sources ++ [sourceDocumentId] }]

/-- The match predicate of `findExistingRelation`: exact
`(sourceEntityId, targetEntityId, relationType)`. -/
def relationMatches (r : KnowledgeRelation) (existing : KnowledgeRelation) : Bool :=
  existing.sourceEntityId == r.sourceEntityId &&
  existing.targetEntityId == r.targetEntityId &&
  existing.relationType == r.relationType

/-- The `KnowledgeManager.findExistingRelation`. -/
def findExistingRelation (rels : List KnowledgeRelation) (r : KnowledgeRelation) :
    Option KnowledgeRelation :=
  rels.find? (relationMatches r)

/-- The strengthening applied to an existing relation by `storeRelations`:
`strength = min(strength + newStrength * 0.3, 1.0)` plus an evidence push. -/
def strengthenRelation (existing newRel : KnowledgeRelation)
    (sourceDocumentId : String) : KnowledgeRelation :=
  { existing with
    strength := min (existing.strength + newRel.strength * (3/10)) 1
    evidence := existing.evidence ++ [sourceDocumentId] }

/-- One pass of the `storeRelations` loop for a single relation. -/
def storeRelation (rels : List KnowledgeRelation) (r : KnowledgeRelation)
    (sourceDocumentId : String) : List KnowledgeRelation :=
  match findExistingRelation rels r with
  | some _ =>
      updateFirst (relationMatches r) (fun ex => strengthenRelation ex r sourceDocumentId) rels
  | none => rels ++ [r]

/-- The `KnowledgeManager.calculateClaimConfidence`: the mean of
`credibilityScore * relevanceScore` over the claim's evidence, clamped by
`Math.min(·, 1.0)`.  (On an empty evidence list the JS code divides 0 by 0;
the update path below only ever calls this with non-empty evidence.) -/
def calculateClaimConfidence (claim : KnowledgeClaim) : ℚ :=
  min ((claim.evidence.map (fun ev => ev.credibilityScore * ev.relevanceScore)).sum /
        claim.evidence.length) 1

/-- The mutation `updateKnowledgeWithEvidence` performs on the claim it
found: push the evidence, recompute confidence, then adjust the
verification status (`> 0.8` promotes only an `unverified` claim;
otherwise `< 0.3` demotes to `false`). -/
def updateClaim (claim : KnowledgeClaim) (evidence : Evidence) : KnowledgeClaim :=
  let claim' := { claim with evidence := claim.evidence ++ [evidence] }
  let newConfidence := calculateClaimConfidence claim'
  let claim' := { claim' with confidence := newConfidence }
  if newConfidence > 8/10 ∧ claim'.verificationStatus = .unverified then
    { claim' with verificationStatus := .verified }
  else if newConfidence < 3/10 then
    { claim' with verificationStatus := .false }
  else claim'

/-- Result record of `updateKnowledgeWithEvidence`. -/
structure UpdateResult where
  success : Bool
  newConfidence : Option ℚ
  verificationStatus : Option VerificationStatus
  deriving DecidableEq, Repr

/-- The `KnowledgeManager.updateKnowledgeWithEvidence` over the claims map
(modelled as a list keyed by `id`): `NotFound` failure leaves the store
untouched; otherwise the found claim is updated in place. -/
def updateKnowledgeWithEvidence (claims : List KnowledgeClaim) (claimId : String)
    (evidence : Evidence) : UpdateResult × List KnowledgeClaim :=
  match claims.find? (fun c => c.id == claimId) with
  | none => ({ success := false, newConfidence := none, verificationStatus := none }, claims)
  | some c =>
      let c' := updateClaim c evidence
      ({ success := true, newConfidence := some c'.confidence,
         verificationStatus := some c'.verificationStatus },
       updateFirst (fun c => c.id == claimId) (fun c => updateClaim c evidence) claims)

/-- The `k`-fold repetition of `updateClaim` with a fixed evidence item
(the repeated `addEvidence` of the spec's round-trip property). -/
def addEvidenceIter (evidence : Evidence) : ℕ → KnowledgeClaim → KnowledgeClaim
  | 0, c => c
  | k + 1, c => updateClaim (addEvidenceIter evidence k c) evidence

/-- The "perfect" evidence item of the round-trip property:
credibility 1.0, relevance 1.0. -/
def perfectEvidence : Evidence :=
  { id := "ev_perfect", documentId := "doc_perfect", snippet := "s",
    relevanceScore := 1, credibilityScore := 1, extractedAt := 0 }

/-- Formalisation of the round-trip claim exactly as stated: for **every**
stored claim, repeated `addEvidence` with credibility 1.0 / relevance 1.0
makes the confidence converge to 1.0 and the verification status reach
`verified` and remain there. -/
def roundTripProperty (c : KnowledgeClaim) : Prop :=
  (∀ ε : ℚ, 0 < ε → ∃ K : ℕ, ∀ k ≥ K,
      1 - ε < (addEvidenceIter perfectEvidence k c).confidence) ∧
  (∃ K : ℕ, ∀ k ≥ K,
      (addEvidenceIter perfectEvidence k c).verificationStatus = .verified)

end Knowledge

/-! ## SimpleVectorIndex

The cosine-similarity search of `SimpleVectorIndex`.  The source computes
`dot / (√(Σa²) · √(Σb²))` and returns `0` whenever either magnitude is
`0`.  A magnitude is `0` exactly when the corresponding sum of squares is
`0`, so the guard is modelled as `sumSquares a = 0 ∨ sumSquares b = 0`.
Because `√` is irrational-valued, the non-zero branch is encoded as the
sign-preserving square of the source's value, `sign(c)·c² =
dot·|dot| / (Σa²·Σb²)`: this is `0` exactly when the source's value is
`0` and is strictly monotone in it, so the ranking produced by `search`
and every zero-similarity statement are preserved exactly.
-/

namespace VecIndex

/-- The `Σ aᵢ·bᵢ` (the `reduce` in `cosineSimilarity`; vectors in the index
share the store's fixed dimension). -/
def dotProduct (a b : List ℚ) : ℚ := (List.zipWith (· * ·) a b).sum

/-- The `Σ aᵢ²` — the square of the magnitude computed by the source. -/
def sumSquares (a : List ℚ) : ℚ := (a.map (fun x => x * x)).sum

/-- The `SimpleVectorIndex.cosineSimilarity` under the encoding described
above: `0` when either vector has zero magnitude, else the
sign-preserving square of the cosine. -/
def cosineSimilarity (a b : List ℚ) : ℚ :=
  if sumSquares a = 0 ∨ sumSquares b = 0 then 0
  else dotProduct a b * |dotProduct a b| / (sumSquares a * sumSquares b)

/-- The `SimpleVectorIndex.search`: score every stored embedding against the
query, sort by similarity descending (JS `sort` is stable), take `k`. -/
def search (vectors : List (String × List ℚ)) (queryVector : List ℚ) (k : ℕ) :
    List (String × ℚ) :=
  ((vectors.map (fun v => (v.1, cosineSimilarity queryVector v.2))).mergeSort
    (fun a b => decide (b.2 ≤ a.2))).take k

end VecIndex

/-! ## RelevanceEngine categorization -/

namespace Relevance

/-- The `BiasScore` from `synthesisLayer.ts` (sub-detector fields carried
verbatim; `categorizeRelevance` reads only `overall`). -/
structure BiasScore where
  overall : ℚ
  political : ℚ
  commercial : ℚ
  demographic : ℚ
  confirmation : ℚ
  deriving DecidableEq, Repr

/-- The four relevance categories. -/
inductive Category
  | core | peripheral | irrelevant | contradictory
  deriving DecidableEq, Repr

/-- The `RelevanceEngine.categorizeRelevance`. -/
def categorizeRelevance (overall semantic : ℚ) (bias : BiasScore) : Category :=
  if bias.overall > 8/10 then .contradictory
  else if overall > 7/10 ∧ semantic > 6/10 then .core
  else if overall > 4/10 then .peripheral
  else .irrelevant

end Relevance

/-! ## Memory Architecture

`MemoryArchitecture.consolidate` together with the pieces it calls:
`shouldConsolidate`, `strengthenMemory`, and `LongTermMemoryImpl.retrieve`
(substring match over lowercased content).  The JS condition
`if (await this.memorySystem.longTerm.retrieve(item.content))` tests the
*array object* returned by `retrieve`; a JS array is truthy even when
empty, which `jsArrayTruthy` records.
-/

namespace Memory

/-- The `MemoryItem` (fields read or written by storage, retrieval and
consolidation; `content: any` is modelled by its `toString()` image,
which is all the code ever reads). -/
structure MemoryItem where
  id : String
  content : String
  importance : ℚ
  recency : ℚ
  frequency : ℕ
  accessCount : ℕ
  created : ℕ
  lastAccessed : ℕ
  deriving DecidableEq, Repr

/-- Truthiness of a JS array value: every array object is truthy,
regardless of its length. -/
def jsArrayTruthy (_ : List MemoryItem) : Bool := true

/-- The `LongTermMemoryImpl.retrieve`: items whose lowercased content contains
the lowercased query, in `Map` insertion order. -/
def ltmRetrieve (storage : List MemoryItem) (query : String) : List MemoryItem :=
  storage.filter (fun item => jsIncludes (jsToLower item.content) (jsToLower query))

/-- The `MemoryArchitecture.shouldConsolidate`: importance above 0.6, or
access count above 3, or age above one hour (the JS
`ageInHours > 1` with `age = now - created` in milliseconds). -/
def shouldConsolidate (now : ℕ) (item : MemoryItem) : Bool :=
  decide (item.importance > 6/10) || decide (item.accessCount > 3) ||
  decide (now - item.created > 3600000)

/-- The `MemoryArchitecture.strengthenMemory`: re-retrieve by content and, if
anything matched, bump the first match's importance (capped at 1.0) and
frequency in place. -/
def strengthenMemory (storage : List MemoryItem) (item : MemoryItem) :
    List MemoryItem :=
  match ltmRetrieve storage item.content with
  | [] => storage
  | _ :: _ =>
      updateFirst (fun m => jsIncludes (jsToLower m.content) (jsToLower item.content))
        (fun m => { m with importance := min (m.importance + 1/10) 1,
                           frequency := m.frequency + 1 })
        storage

/-- The `ConsolidationResult`. -/
structure ConsolidationResult where
  consolidated : ℕ
  strengthened : ℕ
  deriving DecidableEq, Repr

/-- The body of the `for (const item of candidates)` loop in
`consolidate`: the accumulator carries the `consolidated` count, the
`strengthened` count, and the long-term storage. -/
def consolidateStep (acc : ℕ × ℕ × List MemoryItem) (item : MemoryItem) :
    ℕ × ℕ × List MemoryItem :=
  if jsArrayTruthy (ltmRetrieve acc.2.2 item.content) then
    (acc.1, acc.2.1 + 1, strengthenMemory acc.2.2 item)
  else
    (acc.1 + 1, acc.2.1, acc.2.2 ++ [item])

/-- The `MemoryArchitecture.consolidate`: filter the consolidation candidates,
walk them (the `retrieve`d array is always truthy, so the walk always
takes the strengthen branch), then drop every candidate from short-term
memory.  Returns the result record, the new short-term items and the new
long-term storage. -/
def consolidate (now : ℕ) (shortTerm longTerm : List MemoryItem) :
    ConsolidationResult × List MemoryItem × List MemoryItem :=
  let candidates := shortTerm.filter (shouldConsolidate now)
  let final := candidates.foldl consolidateStep (0, 0, longTerm)
  ({ consolidated := final.1, strengthened := final.2.1 },
   shortTerm.filter (fun item => !shouldConsolidate now item),
   final.2.2)

end Memory

/-! ## DeepResearchOrchestrator

A small-step transition system for `executeResearchLoop` plus the public
`stopSession`.  One fine-grained step is either one evaluation of the
`while` guard (`shouldContinueResearch`), one pass of the per-query
`executeSearch` loop body, the completion of the remainder of an
iteration (READ + REASON + memory update + goal check + resource-usage
update + event emission), or an external `stopSession` call.  Retrieval
results, extracted facts and the wall clock are oracle inputs (see the
header of this file).
-/

namespace Orchestrator

/-- The `ResourceBudget`: three ceilings fixed at session start plus the
`maxIterations` ceiling held on the session itself, and running counters. -/
structure ResourceBudget where
  maxTimeMs : ℕ
  maxApiCalls : ℕ
  maxTokens : ℕ
  usedTimeMs : ℕ
  usedApiCalls : ℕ
  usedTokens : ℕ
  deriving DecidableEq, Repr

/-- The `Fact` (a discovered fact in session memory). -/
structure Fact where
  id : String
  content : String
  confidence : ℚ
  sources : List String
  deriving DecidableEq, Repr

/-- The `Question` (a pending follow-up question). -/
structure Question where
  id : String
  query : String
  priority : ℚ
  expectedInfoGain : ℚ
  deriving DecidableEq, Repr

/-- The `Source` (a retrieved source). -/
structure Source where
  id : String
  url : String
  title : String
  content : String
  credibilityScore : ℚ
  relevanceScore : ℚ
  deriving DecidableEq, Repr

/-- The `SessionMemory` (the fields the loop reads and writes). -/
structure SessionMemory where
  discoveredFacts : List Fact
  pendingQuestions : List Question
  exploredQueries : List String
  sources : List Source
  deriving DecidableEq, Repr

/-- The session status union of `orchestrator.ts` — note it has **no**
`stopped` member. -/
inductive SessionStatus
  | initializing | searching | reading | reasoning | synthesizing | completed | failed
  deriving DecidableEq, Repr

/-- The `ResearchSession`. -/
structure ResearchSession where
  id : String
  query : String
  budget : ResourceBudget
  memory : SessionMemory
  currentIteration : ℕ
  maxIterations : ℕ
  status : SessionStatus
  deriving DecidableEq, Repr

/-- JS `options.x || default` for the non-negative integers the options
carry: an absent or zero (falsy) value selects the default. -/
def jsOrDefault (opt : Option ℕ) (dflt : ℕ) : ℕ :=
  match opt with
  | none => dflt
  | some v => if v = 0 then dflt else v

/-- The budget options of `startResearchSession`. -/
structure SessionOptions where
  maxTime : Option ℕ
  maxIterations : Option ℕ
  maxApiCalls : Option ℕ
  maxTokens : Option ℕ
  deriving DecidableEq, Repr

/-- The `startResearchSession`: the session record as created (defaults
5 min / 50 calls / 100000 tokens / 10 iterations, counters zero,
status `initializing`). -/
def startResearchSession (sessionId query : String) (options : SessionOptions) :
    ResearchSession :=
  { id := sessionId
    query := query
    budget :=
      { maxTimeMs := jsOrDefault options.maxTime 300000
        maxApiCalls := jsOrDefault options.maxApiCalls 50
        maxTokens := jsOrDefault options.maxTokens 100000
        usedTimeMs := 0
        usedApiCalls := 0
        usedTokens := 0 }
    memory :=
      { discoveredFacts := [], pendingQuestions := [], exploredQueries := [], sources := [] }
    currentIteration := 0
    maxIterations := jsOrDefault options.maxIterations 10
    status := .initializing }

/-- The `shouldContinueResearch`, with the checks in source order. -/
def shouldContinueResearch (s : ResearchSession) : Bool :=
  if s.budget.usedTimeMs ≥ s.budget.maxTimeMs then Bool.false
  else if s.budget.usedApiCalls ≥ s.budget.maxApiCalls then Bool.false
  else if s.budget.usedTokens ≥ s.budget.maxTokens then Bool.false
  else if s.currentIteration ≥ s.maxIterations then Bool.false
  else if s.memory.pendingQuestions.isEmpty && s.currentIteration > 0 then Bool.false
  else Bool.true

/-- The `generateSearchQueries`: the original query plus the top-3 pending
questions by priority descending (JS `sort` is stable), dropping queries
already explored. -/
def generateSearchQueries (s : ResearchSession) : List String :=
  let queries := [s.query]
  let topQuestions :=
    ((s.memory.pendingQuestions.mergeSort (fun a b => decide (b.priority ≤ a.priority))).take 3).map
      (fun q => q.query)
  (queries ++ topQuestions).filter (fun q => !s.memory.exploredQueries.contains q)

/-- The `performReasoning`'s raw extracted facts (the output of the
content-extraction collaborator): content, confidence and source id. -/
structure RawFact where
  content : String
  confidence : ℚ
  sourceId : String
  deriving DecidableEq, Repr

/-- The fact constructed by `performReasoning` for the `index`-th raw
fact of the current iteration (`confidence: fact.confidence || 0.8` —
a falsy, i.e. zero, confidence selects 0.8). -/
def mkFact (iteration index : ℕ) (raw : RawFact) : Fact :=
  { id := "fact_" ++ toString iteration ++ "_" ++ toString index
    content := raw.content
    confidence := if raw.confidence = 0 then 8/10 else raw.confidence
    sources := [raw.sourceId] }

/-- The `generateFollowUpQuestions`: one question per extracted fact with
confidence below 0.7, with fixed priority 0.8 / info gain 0.7. -/
def generateFollowUpQuestions (iteration : ℕ) (facts : List Fact) : List Question :=
  (facts.enum.filterMap
    (fun fi =>
      if fi.2.confidence < 7/10 then
        some { id := "question_" ++ toString iteration ++ "_" ++ toString fi.1
               query := "What additional evidence supports: " ++
                        jsSubstringTo fi.2.content 50 ++ "...?"
               priority := 8/10
               expectedInfoGain := 7/10 }
      else none))

/-- The `updateSessionMemory`: append facts and questions, then drop every
pending question whose text occurs (case-insensitively) inside some newly
extracted fact's content. -/
def updateSessionMemory (mem : SessionMemory) (facts : List Fact)
    (newQuestions : List Question) : SessionMemory :=
  let mem := { mem with
    discoveredFacts := mem.discoveredFacts ++ facts
    pendingQuestions := mem.pendingQuestions ++ newQuestions }
  { mem with
    pendingQuestions := mem.pendingQuestions.filter
      (fun q => !facts.any (fun f => jsIncludes (jsToLower f.content) (jsToLower q.query))) }

/-- The `evaluateGoalCompletion`: more than 5 facts and more than 2 iterations. -/
def evaluateGoalCompletion (s : ResearchSession) : Bool :=
  decide (s.memory.discoveredFacts.length > 5) && decide (s.currentIteration > 2)

/-- Events emitted through the orchestrator's `EventEmitter`. -/
inductive Event
  | sessionStarted
  | iterationStarted (iteration : ℕ)
  | iterationCompleted (iteration : ℕ)
  | sessionCompleted
  | sessionFailed
  | sessionStopped
  deriving DecidableEq, Repr

/-- Control position inside `executeResearchLoop`. -/
inductive Phase
  /-- About to evaluate the `while` guard. -/
  | atCheck
  /-- Inside `executeSearch`: queries still to dispatch, sources
  collected so far this iteration. -/
  | searching (pending : List String) (collected : List Source)
  /-- After `executeSearch`: about to run READ/REASON and close the
  iteration. -/
  | processing (sources : List Source)
  /-- After the loop: `synthesize` ran and the session completed. -/
  | finished
  deriving DecidableEq, Repr

/-- Full state of one session's execution: the session record, the
control position, and the chronological event log. -/
structure OrchState where
  session : ResearchSession
  phase : Phase
  events : List Event
  deriving DecidableEq, Repr

/-- Oracle data consumed by one small step: the retrieval provider's
answer for the query being dispatched (`none` models a thrown provider
error, which `executeSearch` catches), the extracted raw facts for the
collected sources, and the wall-clock elapsed time read by
`updateResourceUsage`. -/
structure StepInput where
  searchResult : Option (List Source)
  extracted : List RawFact
  elapsedMs : ℕ
  deriving Repr

/-- Loop exit: `synthesizing` → report → `completed`, emitting
`sessionCompleted`. -/
def exitLoop (st : OrchState) : OrchState :=
  { session := { st.session with status := .completed }
    phase := .finished
    events := st.events ++ [.sessionCompleted] }

/-- One small step of `executeResearchLoop`. -/
def loopStep (st : OrchState) (input : StepInput) : OrchState :=
  match st.phase with
  | .atCheck =>
      if shouldContinueResearch st.session then
        let s := { st.session with
          currentIteration := st.session.currentIteration + 1, status := .searching }
        { session := s
          phase := .searching (generateSearchQueries s) []
          events := st.events ++ [.iterationStarted s.currentIteration] }
      else exitLoop st
  | .searching [] collected =>
      { st with
        session := { st.session with status := .reading }
        phase := .processing collected }
  | .searching (q :: rest) collected =>
      let s := st.session
      let s := { s with memory :=
        { s.memory with exploredQueries := s.memory.exploredQueries ++ [q] } }
      match input.searchResult with
      | none => { st with session := s, phase := .searching rest collected }
      | some found =>
          { st with
            session := { s with budget :=
              { s.budget with usedApiCalls := s.budget.usedApiCalls + 1 } }
            phase := .searching rest (collected ++ found) }
  | .processing _ =>
      let s := { st.session with status := .reasoning }
      let newFacts := (input.extracted.enum.map
        (fun ri => mkFact s.currentIteration ri.1 ri.2))
      let newQuestions := generateFollowUpQuestions s.currentIteration newFacts
      let s := { s with memory := updateSessionMemory s.memory newFacts newQuestions }
      if evaluateGoalCompletion s then
        exitLoop { st with session := s }
      else
        let s := { s with budget :=
          { s.budget with usedTimeMs := input.elapsedMs } }
        { session := s
          phase := .atCheck
          events := st.events ++ [.iterationCompleted s.currentIteration] }
  | .finished => st

/-- The `stopSession`: when the session is not already `completed`/`failed`,
set the status to `completed` (the union has no `stopped` member), emit
`sessionStopped`, and return `true`; otherwise return `false`.  The
research loop never reads the status, so this does not affect `loopStep`. -/
def stopSession (st : OrchState) : Bool × OrchState :=
  if st.session.status ≠ .completed ∧ st.session.status ≠ .failed then
    (true,
     { st with
       session := { st.session with status := .completed }
       events := st.events ++ [.sessionStopped] })
  else (false, st)

/-- An external interaction: either one loop step (with its oracle data)
or a `stopSession` call. -/
inductive Action
  | step (input : StepInput)
  | stop
  deriving Repr

/-- Apply one action. -/
def applyAction (st : OrchState) : Action → OrchState
  | .step input => loopStep st input
  | .stop => (stopSession st).2

/-- The initial state right after `startResearchSession` returned:
session stored, `sessionStarted` emitted, loop about to run its guard. -/
def initState (sessionId query : String) (options : SessionOptions) : OrchState :=
  { session := startResearchSession sessionId query options
    phase := .atCheck
    events := [.sessionStarted] }

/-- Run a list of actions from a state. -/
def run (st : OrchState) : List Action → OrchState
  | [] => st
  | a :: rest => run (applyAction st a) rest

end Orchestrator

/-- Inductive invariant of the research loop: the iteration counter never
exceeds its ceiling, `usedTokens` is never written (and its ceiling is at
least 1, since the JS `||` default maps 0 to 100000), and `usedApiCalls`
can overshoot `maxApiCalls` only by the per-iteration search fan-out —
at most 4 queries (the original plus the top 3 questions), of which the
pending ones are still to be dispatched. -/
def Orchestrator.BudgetInv (st : Orchestrator.OrchState) : Prop :=
  st.session.currentIteration ≤ st.session.maxIterations ∧
  st.session.budget.usedTokens = 0 ∧
  1 ≤ st.session.budget.maxTokens ∧
  (match st.phase with
   | .searching pending _ =>
      st.session.budget.usedApiCalls + pending.length ≤ st.session.budget.maxApiCalls + 3
   | _ => st.session.budget.usedApiCalls ≤ st.session.budget.maxApiCalls + 3)

/-! ## Concrete instances

Closed data used by witnesses, counterexamples and failing-input
evaluations. -/

namespace Fixtures

/-- A stored "Acme" organization entity. -/
def acmeStored : Knowledge.KnowledgeEntity :=
  { id := "ent_acme", type := .organization, name := "Acme", description := "stored",
    properties := [("hq", "nyc")], confidence := 1/2, sources := ["doc1"],
    created := 0, lastUpdated := 0 }

/-- A second discovery of the same organization under the lowercased
name, carrying one fresh property. -/
def acmeNew : Knowledge.KnowledgeEntity :=
  { id := "ent_acme2", type := .organization, name := "acme", description := "new",
    properties := [("ceo", "ada")], confidence := 1, sources := [],
    created := 3, lastUpdated := 3 }

/-- A stored relation. -/
def relStored : Knowledge.KnowledgeRelation :=
  { id := "rel1", sourceEntityId := "a", targetEntityId := "b",
    relationType := "supports", strength := 1/2, confidence := 3/5,
    evidence := ["doc1"], created := 0 }

/-- A stored claim whose verification status is `disputed`. -/
def disputedClaim : Knowledge.KnowledgeClaim :=
  { id := "claim1", statement := "s", entities := ["e"], confidence := 1/2,
    evidence := [], contradictions := [], verificationStatus := .disputed }

/-- A `disputed` claim with no evidence and confidence 1 (used by the
round-trip counterexample). -/
def disputedOne : Knowledge.KnowledgeClaim :=
  { id := "claimD", statement := "s", entities := ["e"], confidence := 1,
    evidence := [], contradictions := [], verificationStatus := .disputed }

/-- A stored claim whose verification status is `unverified`. -/
def unverifiedClaim : Knowledge.KnowledgeClaim :=
  { id := "claimU", statement := "s", entities := ["e"], confidence := 1/2,
    evidence := [], contradictions := [], verificationStatus := .unverified }

/-- A short-term memory item that qualifies for consolidation by
importance (0.7 > 0.6). -/
def alphaItem : Memory.MemoryItem :=
  { id := "m1", content := "alpha", importance := 7/10, recency := 1,
    frequency := 0, accessCount := 0, created := 0, lastAccessed := 0 }

/-- Session options with `maxApiCalls = 2` and all other ceilings left to
their defaults. -/
def opts2 : Orchestrator.SessionOptions :=
  { maxTime := none, maxIterations := none, maxApiCalls := some 2, maxTokens := none }

/-- One retrieved source. -/
def src1 : Orchestrator.Source :=
  { id := "s1", url := "u", title := "t", content := "c",
    credibilityScore := 4/5, relevanceScore := 9/10 }

/-- Oracle input for steps that consume no oracle data (guard evaluation,
`executeSearch` loop exit). -/
def inNone : Orchestrator.StepInput :=
  { searchResult := none, extracted := [], elapsedMs := 0 }

/-- Oracle input: the provider answers the dispatched query with one
source. -/
def inFound : Orchestrator.StepInput :=
  { searchResult := some [src1], extracted := [], elapsedMs := 0 }

/-- Oracle input for the iteration-closing step: extraction yields two
facts of confidence 0.5 (below the 0.7 question threshold), and the wall
clock reads 10 ms. -/
def inTwoFacts : Orchestrator.StepInput :=
  { searchResult := none,
    extracted := [{ content := "alpha", confidence := 1/2, sourceId := "s1" },
                  { content := "beta", confidence := 1/2, sourceId := "s1" }],
    elapsedMs := 10 }

/-- One full iteration of the research loop: guard, one search dispatch,
search-loop exit, iteration close (two low-confidence facts extracted,
hence two pending questions). -/
def iterationOneTrace : List Orchestrator.Action :=
  [.step inNone, .step inFound, .step inNone, .step inTwoFacts]

/-- The `iterationOneTrace` followed by the start of iteration 2 and its two
question-driven search dispatches. -/
def overBudgetTrace : List Orchestrator.Action :=
  iterationOneTrace ++ [.step inNone, .step inFound, .step inFound]

/-- The orchestrator state after the first three steps of
`iterationOneTrace`: iteration 1's single query dispatched (one API
call), about to process the retrieved source. -/
def stateProcessing : Orchestrator.OrchState :=
  { session :=
      { id := "sess", query := "q"
        budget := { maxTimeMs := 300000, maxApiCalls := 2, maxTokens := 100000,
                    usedTimeMs := 0, usedApiCalls := 1, usedTokens := 0 }
        memory :=
          { discoveredFacts := [], pendingQuestions := [], exploredQueries := ["q"],
            sources := [] }
        currentIteration := 1
        maxIterations := 10
        status := .reading }
    phase := .processing [src1]
    events := [.sessionStarted, .iterationStarted 1] }

/-- The follow-up question generated for fact `index` of iteration 1 with
content `content` (what `generateFollowUpQuestions` produces for the
`inTwoFacts` oracle). -/
def questionFor (index : ℕ) (content : String) : Orchestrator.Question :=
  { id := "question_" ++ toString 1 ++ "_" ++ toString index
    query := "What additional evidence supports: " ++ jsSubstringTo content 50 ++ "...?"
    priority := 8/10
    expectedInfoGain := 7/10 }

/-- The orchestrator state after `iterationOneTrace`: back at the loop
guard with one API call used, two pending questions, the original query
explored, and 10 ms of wall time recorded. -/
def stateAfterIterationOne : Orchestrator.OrchState :=
  { session :=
      { id := "sess", query := "q"
        budget := { maxTimeMs := 300000, maxApiCalls := 2, maxTokens := 100000,
                    usedTimeMs := 10, usedApiCalls := 1, usedTokens := 0 }
        memory :=
          { discoveredFacts :=
              [{ id := "fact_" ++ toString 1 ++ "_" ++ toString 0, content := "alpha",
                 confidence := 1/2, sources := ["s1"] },
               { id := "fact_" ++ toString 1 ++ "_" ++ toString 1, content := "beta",
                 confidence := 1/2, sources := ["s1"] }]
            pendingQuestions := [questionFor 0 "alpha", questionFor 1 "beta"]
            exploredQueries := ["q"]
            sources := [] }
        currentIteration := 1
        maxIterations := 10
        status := .reasoning }
    phase := .atCheck
    events := [.sessionStarted, .iterationStarted 1, .iterationCompleted 1] }

end Fixtures

/-! # Theorems -/

/-! ## C7 — final relevance categorization -/

/-- Claim C7: the final category is determined exactly by the cascade
`bias.overall > 0.8 → contradictory`, else `overall > 0.7 ∧ semantic >
0.6 → core`, else `overall > 0.4 → peripheral`, else `irrelevant`;
in particular `bias.overall = 0.9` forces `contradictory` no matter how
high the semantic score is. -/
theorem claim_C7_categorization (overall semantic : ℚ) (bias : Relevance.BiasScore) :
    (Relevance.categorizeRelevance overall semantic bias = .contradictory ↔
      bias.overall > 8/10) ∧
    (Relevance.categorizeRelevance overall semantic bias = .core ↔
      bias.overall ≤ 8/10 ∧ overall > 7/10 ∧ semantic > 6/10) ∧
    (Relevance.categorizeRelevance overall semantic bias = .peripheral ↔
      bias.overall ≤ 8/10 ∧ ¬(overall > 7/10 ∧ semantic > 6/10) ∧ overall > 4/10) ∧
    (Relevance.categorizeRelevance overall semantic bias = .irrelevant ↔
      bias.overall ≤ 8/10 ∧ ¬(overall > 7/10 ∧ semantic > 6/10) ∧ overall ≤ 4/10) ∧
    (bias.overall = 9/10 →
      Relevance.categorizeRelevance overall semantic bias = .contradictory) := by
  refine ⟨?_, ?_, ?_, ?_, ?_⟩
  · unfold Relevance.categorizeRelevance
    split_ifs with h1 h2 h3 <;> simp_all [not_lt]
  · unfold Relevance.categorizeRelevance
    split_ifs with h1 h2 h3 <;> simp_all [not_lt]
  · unfold Relevance.categorizeRelevance
    split_ifs with h1 h2 h3 <;> simp_all [not_lt]
  · unfold Relevance.categorizeRelevance
    split_ifs with h1 h2 h3 <;> simp_all [not_lt]
  · intro h
    unfold Relevance.categorizeRelevance
    rw [h]
    norm_num

/-- Claim C7 witness: Scenario D at a concrete input — `bias.overall = 0.9`
with a maximal semantic score is still categorized `contradictory`. -/
theorem claim_C7_witness :
    Relevance.categorizeRelevance 1 1 ⟨9/10, 0, 0, 0, 0⟩ = .contradictory :=
  (claim_C7_categorization 1 1 ⟨9/10, 0, 0, 0, 0⟩).2.2.2.2 rfl

/-! ## C9 — zero-magnitude vectors get similarity 0 -/

/-- Claim C9: the similarity computation returns `0` (totally, with no
division performed) whenever either vector has zero magnitude — a
magnitude is zero exactly when the sum of squares is — and consequently a
`search` with a zero-magnitude query vector reports similarity `0` for
every candidate it returns. -/
theorem claim_C9_zero_vector_similarity :
    (∀ a b : List ℚ, VecIndex.sumSquares a = 0 ∨ VecIndex.sumSquares b = 0 →
      VecIndex.cosineSimilarity a b = 0) ∧
    (∀ (vectors : List (String × List ℚ)) (q : List ℚ) (k : ℕ),
      VecIndex.sumSquares q = 0 →
      ∀ r ∈ VecIndex.search vectors q k, r.2 = 0) := by
  have hzero : ∀ a b : List ℚ, VecIndex.sumSquares a = 0 ∨ VecIndex.sumSquares b = 0 →
      VecIndex.cosineSimilarity a b = 0 := by
    intro a b h
    unfold VecIndex.cosineSimilarity
    rw [if_pos h]
  refine ⟨hzero, ?_⟩
  intro vectors q k hq r hr
  unfold VecIndex.search at hr
  have hr' := List.mem_of_mem_take hr
  rw [List.mem_mergeSort] at hr'
  obtain ⟨v, _, rfl⟩ := List.mem_map.mp hr'
  exact hzero _ _ (Or.inl hq)

/-- Claim C9 witness: the all-zero vector has zero sum of squares, and its
similarity against a non-zero candidate is `0`. -/
theorem claim_C9_witness :
    VecIndex.sumSquares [(0:ℚ), 0] = 0 ∧
    VecIndex.cosineSimilarity [(0:ℚ), 0] [1, 2] = 0 := by
  have h : VecIndex.sumSquares [(0:ℚ), 0] = 0 := by
    norm_num [VecIndex.sumSquares]
  exact ⟨h, claim_C9_zero_vector_similarity.1 _ _ (Or.inl h)⟩

/-! ## Shared helper lemmas -/

/-- The `updateFirst` preserves length. -/
theorem updateFirst_length (p : α → Bool) (f : α → α) (l : List α) :
    (updateFirst p f l).length = l.length := by
  induction l with
  | nil => rfl
  | cons x xs ih => by_cases h : p x <;> simp [updateFirst, h, ih]

/-- The element found by `find?` is rewritten by `updateFirst` and its
image is in the result. -/
theorem mem_updateFirst_of_find? (p : α → Bool) (f : α → α) (l : List α) (x : α)
    (h : l.find? p = some x) : f x ∈ updateFirst p f l := by
  induction l with
  | nil => simp at h
  | cons a as ih =>
      by_cases ha : p a
      · rw [List.find?_cons_of_pos _ ha] at h
        obtain rfl : a = x := by injection h
        simp [updateFirst, ha]
      · rw [List.find?_cons_of_neg _ ha] at h
        have hstep : updateFirst p f (a :: as) = a :: updateFirst p f as := by
          simp [updateFirst, ha]
        rw [hstep]
        exact List.mem_cons_of_mem a (ih h)

/-- The `lookupKey` over an append searches left first. -/
theorem lookupKey_append (k : String) (l₁ l₂ : List (String × String)) :
    lookupKey k (l₁ ++ l₂) = (lookupKey k l₁).or (lookupKey k l₂) := by
  induction l₁ with
  | nil => simp [lookupKey]
  | cons kv rest ih =>
      obtain ⟨k', v⟩ := kv
      by_cases h : k' = k <;> simp [lookupKey, h, ih]

/-- The `any`-based key-presence test agrees with `lookupKey`. -/
theorem any_key_eq_lookupKey_isSome (k : String) (l : List (String × String)) :
    (l.any fun p => p.1 == k) = (lookupKey k l).isSome := by
  induction l with
  | nil => rfl
  | cons kv rest ih =>
      obtain ⟨k', v⟩ := kv
      by_cases h : k' = k <;> simp [lookupKey, h, ih]

/-- Characterization of the property merge: an existing key keeps its
value, a missing key receives the incoming entity's (first) value. -/
theorem lookupKey_mergeProps (k : String) (np acc : List (String × String)) :
    lookupKey k (Knowledge.mergeProps acc np) =
      (lookupKey k acc).or (lookupKey k np) := by
  induction np generalizing acc with
  | nil => cases h : lookupKey k acc <;> simp [Knowledge.mergeProps, lookupKey, h]
  | cons kv rest ih =>
      obtain ⟨k', v⟩ := kv
      simp only [Knowledge.mergeProps, List.foldl_cons] at ih ⊢
      by_cases hk : (acc.any fun p => p.1 == k') = true
      · rw [if_pos hk, ih]
        by_cases hkk : k' = k
        · subst hkk
          have hs : (lookupKey k' acc).isSome := by
            rw [← any_key_eq_lookupKey_isSome]; exact hk
          obtain ⟨w, hw⟩ := Option.isSome_iff_exists.mp hs
          simp [lookupKey, hw]
        · simp [lookupKey, hkk]
      · rw [if_neg hk, ih, lookupKey_append]
        rw [Option.or_assoc]
        congr 1
        by_cases hkk : k' = k <;> simp [lookupKey, hkk]

/-- Merging a property map whose keys are all already present changes
nothing. -/
theorem mergeProps_of_covered (np acc : List (String × String))
    (h : ∀ kv ∈ np, (acc.any fun p => p.1 == kv.1) = true) :
    Knowledge.mergeProps acc np = acc := by
  induction np with
  | nil => rfl
  | cons kv rest ih =>
      simp only [Knowledge.mergeProps, List.foldl_cons] at ih ⊢
      rw [if_pos (h kv (List.mem_cons_self kv rest))]
      exact ih (fun x hx => h x (List.mem_cons_of_mem kv hx))

/-- Merging a property map into itself changes nothing. -/
theorem mergeProps_self (l : List (String × String)) :
    Knowledge.mergeProps l l = l :=
  mergeProps_of_covered l l
    (fun kv hkv => List.any_eq_true.mpr ⟨kv, hkv, beq_self_eq_true kv.1⟩)

/-! ## C3 — entity upsert -/

/-- Claim C3: upserting an entity that matches an existing record (same
lowercased name, same type) keeps a single record — the store's size is
unchanged and the merged record is in it — and the merged record copies
only property keys the existing one lacks, has confidence
`(oldConfidence·oldSourceCount + newConfidence)/(oldSourceCount+1)`,
appends the new source id and sets `lastUpdated`; with no match the
entity is inserted as a new record (with the source id pushed). -/
theorem claim_C3_upsertEntity (graph : List Knowledge.KnowledgeEntity)
    (e : Knowledge.KnowledgeEntity) (sourceDocumentId : String) (now : ℕ) :
    (∀ ex, Knowledge.findExistingEntity graph e = some ex →
      (Knowledge.storeEntity graph e sourceDocumentId now).length = graph.length ∧
      Knowledge.mergeEntities ex e sourceDocumentId now ∈
        Knowledge.storeEntity graph e sourceDocumentId now ∧
      jsToLower ex.name = jsToLower e.name ∧ ex.type = e.type ∧
      (Knowledge.mergeEntities ex e sourceDocumentId now).confidence =
        (ex.confidence * ex.sources.length + e.confidence) / (ex.sources.length + 1) ∧
      (Knowledge.mergeEntities ex e sourceDocumentId now).sources =
        ex.sources ++ [sourceDocumentId] ∧
      (Knowledge.mergeEntities ex e sourceDocumentId now).lastUpdated = now ∧
      (∀ k, lookupKey k (Knowledge.mergeEntities ex e sourceDocumentId now).properties =
        (lookupKey k ex.properties).or (lookupKey k e.properties))) ∧
    (Knowledge.findExistingEntity graph e = none →
      Knowledge.storeEntity graph e sourceDocumentId now =
        graph ++ [{ e with sources := e.sources ++ [sourceDocumentId] }]) := by
  constructor
  · intro ex hex
    have hmatch : Knowledge.entityMatches e ex = true := List.find?_some hex
    have hname : jsToLower ex.name = jsToLower e.name ∧ ex.type = e.type := by
      simpa [Knowledge.entityMatches, Bool.and_eq_true, beq_iff_eq] using hmatch
    have hstore : Knowledge.storeEntity graph e sourceDocumentId now =
        updateFirst (Knowledge.entityMatches e)
          (fun x => Knowledge.mergeEntities x e sourceDocumentId now) graph := by
      simp only [Knowledge.storeEntity, hex]
    refine ⟨?_, ?_, hname.1, hname.2, rfl, rfl, rfl, ?_⟩
    · rw [hstore]; exact updateFirst_length _ _ _
    · rw [hstore]; exact mem_updateFirst_of_find? _ _ _ _ hex
    · intro k; exact lookupKey_mergeProps k e.properties ex.properties
  · intro hnone
    simp only [Knowledge.storeEntity, hnone]

/-- Claim C3 witness: merging a second "acme" discovery into a one-entity
store keeps a single record. -/
theorem claim_C3_witness :
    Knowledge.findExistingEntity [Fixtures.acmeStored] Fixtures.acmeNew =
      some Fixtures.acmeStored ∧
    (Knowledge.storeEntity [Fixtures.acmeStored] Fixtures.acmeNew "doc2" 7).length = 1 := by
  refine ⟨rfl, ?_⟩
  have h := (claim_C3_upsertEntity [Fixtures.acmeStored] Fixtures.acmeNew "doc2" 7).1
    Fixtures.acmeStored rfl
  simpa using h.1

/-! ## C4 — idempotence of byte-identical re-upsert -/

/-- Claim C4: re-upserting a byte-identical copy of a stored entity keeps a
single record with unchanged confidence and properties, and increments
its source count exactly once; re-upserting a byte-identical copy of a
stored relation creates no duplicate edge and leaves the relation's
confidence field unchanged. -/
theorem claim_C4_idempotent_merge
    (graph : List Knowledge.KnowledgeEntity) (e : Knowledge.KnowledgeEntity)
    (sid : String) (now : ℕ)
    (rels : List Knowledge.KnowledgeRelation) (r : Knowledge.KnowledgeRelation)
    (rsid : String)
    (he : Knowledge.findExistingEntity graph e = some e)
    (hr : Knowledge.findExistingRelation rels r = some r) :
    (Knowledge.storeEntity graph e sid now).length = graph.length ∧
    (Knowledge.mergeEntities e e sid now).confidence = e.confidence ∧
    (Knowledge.mergeEntities e e sid now).properties = e.properties ∧
    (Knowledge.mergeEntities e e sid now).sources.length = e.sources.length + 1 ∧
    Knowledge.mergeEntities e e sid now ∈ Knowledge.storeEntity graph e sid now ∧
    (Knowledge.storeRelation rels r rsid).length = rels.length ∧
    (Knowledge.strengthenRelation r r rsid).confidence = r.confidence ∧
    Knowledge.strengthenRelation r r rsid ∈ Knowledge.storeRelation rels r rsid := by
  have hne : ((e.sources.length : ℚ) + 1) ≠ 0 := by positivity
  have hstoreE : Knowledge.storeEntity graph e sid now =
      updateFirst (Knowledge.entityMatches e)
        (fun x => Knowledge.mergeEntities x e sid now) graph := by
    simp only [Knowledge.storeEntity, he]
  have hstoreR : Knowledge.storeRelation rels r rsid =
      updateFirst (Knowledge.relationMatches r)
        (fun x => Knowledge.strengthenRelation x r rsid) rels := by
    simp only [Knowledge.storeRelation, hr]
  refine ⟨?_, ?_, ?_, ?_, ?_, ?_, rfl, ?_⟩
  · rw [hstoreE]; exact updateFirst_length _ _ _
  · show (e.confidence * e.sources.length + e.confidence) / (e.sources.length + 1) =
      e.confidence
    field_simp
    ring
  · exact mergeProps_self e.properties
  · simp [Knowledge.mergeEntities]
  · rw [hstoreE]; exact mem_updateFirst_of_find? _ _ _ _ he
  · rw [hstoreR]; exact updateFirst_length _ _ _
  · rw [hstoreR]; exact mem_updateFirst_of_find? _ _ _ _ hr

/-- Claim C4 witness: a byte-identical second upsert of the stored "Acme"
entity and of a stored relation, evaluated concretely. -/
theorem claim_C4_witness :
    Knowledge.findExistingEntity [Fixtures.acmeStored] Fixtures.acmeStored =
      some Fixtures.acmeStored ∧
    Knowledge.findExistingRelation [Fixtures.relStored] Fixtures.relStored =
      some Fixtures.relStored ∧
    (Knowledge.storeEntity [Fixtures.acmeStored] Fixtures.acmeStored "doc2" 9).length = 1 ∧
    (Knowledge.mergeEntities Fixtures.acmeStored Fixtures.acmeStored "doc2" 9).confidence =
      Fixtures.acmeStored.confidence := by
  have h := claim_C4_idempotent_merge [Fixtures.acmeStored] Fixtures.acmeStored "doc2" 9
    [Fixtures.relStored] Fixtures.relStored "doc3" rfl rfl
  exact ⟨rfl, rfl, by simpa using h.1, h.2.1⟩

/-! ## C5 — addEvidence -/

/-- Claim C5 (amended): `addEvidence` on an absent claim id fails and
leaves the store unchanged; on a present claim it appends the evidence
and reports a confidence that (whenever every per-item
`credibility·relevance` product is at most 1, in particular for scores in
`[0,1]`) is exactly the mean of the products over all evidence; the new
status is `verified` only when the new confidence exceeds 0.8 **and the
claim was `unverified`**, else `false` when the new confidence is below
0.3, else unchanged. -/
theorem claim_C5_addEvidence (claims : List Knowledge.KnowledgeClaim)
    (claimId : String) (ev : Knowledge.Evidence) :
    (claims.find? (fun c => c.id == claimId) = none →
      Knowledge.updateKnowledgeWithEvidence claims claimId ev =
        ({ success := false, newConfidence := none, verificationStatus := none }, claims)) ∧
    (∀ c, claims.find? (fun c => c.id == claimId) = some c →
      (Knowledge.updateKnowledgeWithEvidence claims claimId ev).1.success = true ∧
      (Knowledge.updateKnowledgeWithEvidence claims claimId ev).1.newConfidence =
        some (Knowledge.calculateClaimConfidence { c with evidence := c.evidence ++ [ev] }) ∧
      ((∀ x ∈ c.evidence ++ [ev], x.credibilityScore * x.relevanceScore ≤ 1) →
        Knowledge.calculateClaimConfidence { c with evidence := c.evidence ++ [ev] } *
          ((c.evidence.length : ℚ) + 1) =
        ((c.evidence ++ [ev]).map fun x => x.credibilityScore * x.relevanceScore).sum) ∧
      (Knowledge.updateKnowledgeWithEvidence claims claimId ev).1.verificationStatus =
        some (
          if Knowledge.calculateClaimConfidence { c with evidence := c.evidence ++ [ev] } > 8/10
              ∧ c.verificationStatus = .unverified then .verified
          else if Knowledge.calculateClaimConfidence { c with evidence := c.evidence ++ [ev] }
              < 3/10 then .false
          else c.verificationStatus)) := by
  constructor
  · intro hnone
    simp only [Knowledge.updateKnowledgeWithEvidence, hnone]
  · intro c hc
    simp only [Knowledge.updateKnowledgeWithEvidence, hc]
    refine ⟨trivial, ?_, ?_, ?_⟩
    · simp only [Knowledge.updateClaim]
      split_ifs <;> rfl
    · intro hb
      have hlen : (({ c with evidence := c.evidence ++ [ev]} :
          Knowledge.KnowledgeClaim).evidence.length : ℚ) = (c.evidence.length : ℚ) + 1 := by
        simp only [List.length_append, List.length_singleton]
        push_cast
        ring
      have hpos : (0 : ℚ) < (c.evidence.length : ℚ) + 1 := by positivity
      have hsum : ((c.evidence ++ [ev]).map
          fun x => x.credibilityScore * x.relevanceScore).sum ≤
            (c.evidence.length : ℚ) + 1 := by
        have := List.sum_le_card_nsmul
          ((c.evidence ++ [ev]).map fun x => x.credibilityScore * x.relevanceScore) 1
          (by
            intro x hx
            obtain ⟨y, hy, rfl⟩ := List.mem_map.mp hx
            exact hb y hy)
        simpa [List.length_append, nsmul_eq_mul, add_comm] using this
      have hmean : Knowledge.calculateClaimConfidence
          { c with evidence := c.evidence ++ [ev] } =
          ((c.evidence ++ [ev]).map
            fun x => x.credibilityScore * x.relevanceScore).sum /
            ((c.evidence.length : ℚ) + 1) := by
        unfold Knowledge.calculateClaimConfidence
        rw [hlen, min_eq_left (by rw [div_le_one hpos]; exact hsum)]
      rw [hmean, div_mul_cancel₀ _ (ne_of_gt hpos)]
    · simp only [Knowledge.updateClaim]
      split_ifs <;> rfl

/-- Claim C5 counterexample: the claim as stated says a new confidence
above 0.8 makes the claim `verified`; on a stored claim whose status is
`disputed`, adding perfect evidence yields confidence 1 yet the status
stays `disputed`. -/
theorem claim_C5_counterexample :
    (Knowledge.updateKnowledgeWithEvidence [Fixtures.disputedClaim] "claim1"
        Knowledge.perfectEvidence).1 =
      { success := true, newConfidence := some 1,
        verificationStatus := some .disputed } := by
  have hfind : List.find? (fun c => c.id == "claim1") [Fixtures.disputedClaim] =
      some Fixtures.disputedClaim := rfl
  simp only [Knowledge.updateKnowledgeWithEvidence, hfind]
  have hne : Knowledge.VerificationStatus.disputed ≠ Knowledge.VerificationStatus.unverified :=
    fun h => Knowledge.VerificationStatus.noConfusion h
  norm_num [Knowledge.updateClaim, Knowledge.calculateClaimConfidence,
    Fixtures.disputedClaim, Knowledge.perfectEvidence, hne]

/-- Claim C5 witness: on an `unverified` claim, perfect evidence (new
confidence 1 > 0.8) does flip the status to `verified`. -/
theorem claim_C5_witness :
    ((Knowledge.updateKnowledgeWithEvidence [Fixtures.unverifiedClaim] "claimU"
        Knowledge.perfectEvidence).1).verificationStatus = some .verified := by
  have h := (claim_C5_addEvidence [Fixtures.unverifiedClaim] "claimU"
    Knowledge.perfectEvidence).2 Fixtures.unverifiedClaim rfl
  rw [h.2.2.2]
  norm_num [Knowledge.calculateClaimConfidence, Fixtures.unverifiedClaim,
    Knowledge.perfectEvidence]

/-! ## C6 — round-trip convergence of repeated perfect evidence -/

/-- The `updateClaim` appends the evidence item. -/
theorem updateClaim_evidence (c : Knowledge.KnowledgeClaim) (ev : Knowledge.Evidence) :
    (Knowledge.updateClaim c ev).evidence = c.evidence ++ [ev] := by
  unfold Knowledge.updateClaim
  dsimp only
  split_ifs <;> rfl

/-- The `updateClaim` stores the recomputed confidence. -/
theorem updateClaim_confidence (c : Knowledge.KnowledgeClaim) (ev : Knowledge.Evidence) :
    (Knowledge.updateClaim c ev).confidence =
      Knowledge.calculateClaimConfidence { c with evidence := c.evidence ++ [ev] } := by
  unfold Knowledge.updateClaim
  dsimp only
  split_ifs <;> rfl

/-- The status written by `updateClaim`, as a function of the recomputed
confidence and the old status. -/
theorem updateClaim_status (c : Knowledge.KnowledgeClaim) (ev : Knowledge.Evidence) :
    (Knowledge.updateClaim c ev).verificationStatus =
      (if Knowledge.calculateClaimConfidence { c with evidence := c.evidence ++ [ev] } > 8/10
          ∧ c.verificationStatus = .unverified then .verified
       else if Knowledge.calculateClaimConfidence { c with evidence := c.evidence ++ [ev] }
          < 3/10 then .false
       else c.verificationStatus) := by
  unfold Knowledge.updateClaim
  dsimp only
  split_ifs <;> rfl

/-- Monotonicity of `(S + a)/(n + a)` in `a` when `S ≤ n`. -/
theorem frac_mono (S n a b : ℚ) (hSn : S ≤ n) (hn : 0 ≤ n) (ha : 0 < a)
    (hab : a ≤ b) : (S + a) / (n + a) ≤ (S + b) / (n + b) := by
  have h1 : (0:ℚ) < n + a := by linarith
  have h2 : (0:ℚ) < n + b := by linarith
  rw [div_le_div_iff₀ h1 h2]
  nlinarith [mul_le_mul_of_nonneg_right hSn (sub_nonneg.mpr hab)]

/-- The recomputed mean after the evidence list has grown by `j` copies
of the perfect item: with `S` the sum of the original products and `n`
the original count, the confidence is `(S + j)/(n + j)` (the clamp at 1
is inert because `S ≤ n`). -/
theorem calc_conf_replicate (c d : Knowledge.KnowledgeClaim) (j : ℕ)
    (hd : d.evidence = c.evidence ++ List.replicate j Knowledge.perfectEvidence)
    (hSn : (c.evidence.map fun ev => ev.credibilityScore * ev.relevanceScore).sum ≤
      (c.evidence.length : ℚ))
    (hj : 1 ≤ j) :
    Knowledge.calculateClaimConfidence d =
      ((c.evidence.map fun ev => ev.credibilityScore * ev.relevanceScore).sum + j) /
        ((c.evidence.length : ℚ) + j) := by
  have hjpos : (0:ℚ) < (j:ℚ) := by exact_mod_cast hj
  have hnn : (0:ℚ) ≤ (c.evidence.length : ℚ) := by positivity
  unfold Knowledge.calculateClaimConfidence
  rw [hd]
  have hsum : ((c.evidence ++ List.replicate j Knowledge.perfectEvidence).map
      fun ev => ev.credibilityScore * ev.relevanceScore).sum =
      (c.evidence.map fun ev => ev.credibilityScore * ev.relevanceScore).sum + j := by
    rw [List.map_append, List.sum_append, List.map_replicate]
    simp [Knowledge.perfectEvidence, List.sum_replicate, nsmul_eq_mul]
  have hlen : (((c.evidence ++ List.replicate j Knowledge.perfectEvidence)).length : ℚ) =
      (c.evidence.length : ℚ) + j := by
    rw [List.length_append, List.length_replicate]
    push_cast
    ring
  rw [hsum, hlen, min_eq_left]
  rw [div_le_one (by linarith)]
  linarith

/-- Closed form for the `k`-fold perfect-evidence update of an
`unverified` claim whose original evidence products sum to at most the
evidence count and whose first recomputed mean stays at or above 0.3:
after `k ≥ 1` updates the evidence has grown by `k` perfect items, the
confidence is `(S + k)/(n + k)`, and the status is `verified` exactly
when that value exceeds 0.8. -/
theorem c6_closed_form (c : Knowledge.KnowledgeClaim)
    (hstatus : c.verificationStatus = .unverified)
    (hSn : (c.evidence.map fun ev => ev.credibilityScore * ev.relevanceScore).sum ≤
      (c.evidence.length : ℚ))
    (hfirst : 3/10 ≤
      ((c.evidence.map fun ev => ev.credibilityScore * ev.relevanceScore).sum + 1) /
        ((c.evidence.length : ℚ) + 1)) :
    ∀ k : ℕ, 1 ≤ k →
      (Knowledge.addEvidenceIter Knowledge.perfectEvidence k c).evidence =
        c.evidence ++ List.replicate k Knowledge.perfectEvidence ∧
      (Knowledge.addEvidenceIter Knowledge.perfectEvidence k c).confidence =
        ((c.evidence.map fun ev => ev.credibilityScore * ev.relevanceScore).sum + k) /
          ((c.evidence.length : ℚ) + k) ∧
      (Knowledge.addEvidenceIter Knowledge.perfectEvidence k c).verificationStatus =
        (if 8/10 <
            ((c.evidence.map fun ev => ev.credibilityScore * ev.relevanceScore).sum + k) /
              ((c.evidence.length : ℚ) + k)
         then .verified else .unverified) := by
  have hnn : (0:ℚ) ≤ (c.evidence.length : ℚ) := by positivity
  have hq : ∀ j : ℕ, 1 ≤ j → 3/10 ≤
      ((c.evidence.map fun ev => ev.credibilityScore * ev.relevanceScore).sum + j) /
        ((c.evidence.length : ℚ) + j) := by
    intro j hj
    refine le_trans hfirst ?_
    have hj1 : (1:ℚ) ≤ (j:ℚ) := by exact_mod_cast hj
    exact frac_mono _ _ 1 j hSn hnn one_pos hj1
  have hmono : ∀ j : ℕ, 1 ≤ j →
      ((c.evidence.map fun ev => ev.credibilityScore * ev.relevanceScore).sum + j) /
        ((c.evidence.length : ℚ) + j) ≤
      ((c.evidence.map fun ev => ev.credibilityScore * ev.relevanceScore).sum + (j+1)) /
        ((c.evidence.length : ℚ) + (j+1)) := by
    intro j hj
    have hjpos : (0:ℚ) < (j:ℚ) := by exact_mod_cast hj
    have := frac_mono
      ((c.evidence.map fun ev => ev.credibilityScore * ev.relevanceScore).sum)
      ((c.evidence.length : ℚ)) j (j+1) hSn hnn hjpos (by linarith)
    convert this using 3
  intro k hk
  induction k, hk using Nat.le_induction with
  | base =>
      have h1 : Knowledge.addEvidenceIter Knowledge.perfectEvidence 1 c =
          Knowledge.updateClaim c Knowledge.perfectEvidence := rfl
      have hev : (Knowledge.updateClaim c Knowledge.perfectEvidence).evidence =
          c.evidence ++ List.replicate 1 Knowledge.perfectEvidence := by
        rw [updateClaim_evidence, List.replicate_one]
      have hconf0 : Knowledge.calculateClaimConfidence
          { c with evidence := c.evidence ++ [Knowledge.perfectEvidence] } =
          ((c.evidence.map fun ev => ev.credibilityScore * ev.relevanceScore).sum + (1:ℕ)) /
            ((c.evidence.length : ℚ) + (1:ℕ)) := by
        refine calc_conf_replicate c _ 1 ?_ hSn le_rfl
        simp [List.replicate_one]
      have hconf : (Knowledge.updateClaim c Knowledge.perfectEvidence).confidence =
          ((c.evidence.map fun ev => ev.credibilityScore * ev.relevanceScore).sum + (1:ℕ)) /
            ((c.evidence.length : ℚ) + (1:ℕ)) := by
        rw [updateClaim_confidence, hconf0]
      refine ⟨by rw [h1]; exact hev, by rw [h1]; exact_mod_cast hconf, ?_⟩
      rw [h1, updateClaim_status, hconf0, hstatus]
      by_cases hgt : 8/10 <
          ((c.evidence.map fun ev => ev.credibilityScore * ev.relevanceScore).sum + (1:ℕ)) /
            ((c.evidence.length : ℚ) + (1:ℕ))
      · rw [if_pos ⟨hgt, rfl⟩]
        have : 8/10 <
            ((c.evidence.map fun ev => ev.credibilityScore * ev.relevanceScore).sum + ((1:ℕ):ℚ)) /
              ((c.evidence.length : ℚ) + ((1:ℕ):ℚ)) := hgt
        rw [if_pos (by exact_mod_cast this)]
      · rw [if_neg (fun h => hgt h.1)]
        have h3 := hq 1 le_rfl
        rw [if_neg (by push_cast; push_cast at h3; linarith)]
        rw [if_neg (by exact_mod_cast hgt)]
  | succ k hk ih =>
      obtain ⟨ihev, ihconf, ihstat⟩ := ih
      have h1 : Knowledge.addEvidenceIter Knowledge.perfectEvidence (k+1) c =
          Knowledge.updateClaim (Knowledge.addEvidenceIter Knowledge.perfectEvidence k c)
            Knowledge.perfectEvidence := rfl
      have hev : (Knowledge.addEvidenceIter Knowledge.perfectEvidence (k+1) c).evidence =
          c.evidence ++ List.replicate (k+1) Knowledge.perfectEvidence := by
        rw [h1, updateClaim_evidence, ihev, List.append_assoc, ← List.replicate_succ']
      have hconf0 : Knowledge.calculateClaimConfidence
          { Knowledge.addEvidenceIter Knowledge.perfectEvidence k c with
            evidence := (Knowledge.addEvidenceIter Knowledge.perfectEvidence k c).evidence ++
              [Knowledge.perfectEvidence] } =
          ((c.evidence.map fun ev => ev.credibilityScore * ev.relevanceScore).sum + ((k:ℚ)+1)) /
            ((c.evidence.length : ℚ) + ((k:ℚ)+1)) := by
        have := calc_conf_replicate c
          { Knowledge.addEvidenceIter Knowledge.perfectEvidence k c with
            evidence := (Knowledge.addEvidenceIter Knowledge.perfectEvidence k c).evidence ++
              [Knowledge.perfectEvidence] } (k+1) ?_ hSn (by omega)
        · rw [this]; push_cast; ring_nf
        · dsimp only
          rw [ihev, List.append_assoc, ← List.replicate_succ']
      have hkq : (1:ℚ) ≤ (k:ℚ) := by exact_mod_cast hk
      constructor
      · exact hev
      constructor
      · rw [h1, updateClaim_confidence, hconf0]
        push_cast
        ring_nf
      · rw [h1, updateClaim_status, hconf0, ihstat]
        have hcast : ((c.evidence.map fun ev => ev.credibilityScore * ev.relevanceScore).sum +
            (((k:ℕ)+1 : ℕ) : ℚ)) / ((c.evidence.length : ℚ) + (((k:ℕ)+1 : ℕ) : ℚ)) =
            ((c.evidence.map fun ev => ev.credibilityScore * ev.relevanceScore).sum + ((k:ℚ)+1)) /
              ((c.evidence.length : ℚ) + ((k:ℚ)+1)) := by
          push_cast
          ring_nf
        rw [hcast]
        by_cases hqk : 8/10 <
            ((c.evidence.map fun ev => ev.credibilityScore * ev.relevanceScore).sum + (k:ℚ)) /
              ((c.evidence.length : ℚ) + (k:ℚ))
        · rw [if_pos hqk]
          have hnext : 8/10 <
              ((c.evidence.map fun ev => ev.credibilityScore * ev.relevanceScore).sum + ((k:ℚ)+1)) /
                ((c.evidence.length : ℚ) + ((k:ℚ)+1)) := by
            have hm := hmono k hk
            push_cast at hm
            linarith
          rw [if_neg (fun h => Knowledge.VerificationStatus.noConfusion h.2),
              if_neg (by have h3 := hq k hk; push_cast at h3 ⊢; linarith),
              if_pos hnext]
        · rw [if_neg hqk]
          by_cases hnext : 8/10 <
              ((c.evidence.map fun ev => ev.credibilityScore * ev.relevanceScore).sum + ((k:ℚ)+1)) /
                ((c.evidence.length : ℚ) + ((k:ℚ)+1))
          · rw [if_pos ⟨hnext, rfl⟩, if_pos hnext]
          · have h3 : (3:ℚ)/10 ≤
                ((c.evidence.map fun ev => ev.credibilityScore * ev.relevanceScore).sum + ((k:ℚ)+1)) /
                  ((c.evidence.length : ℚ) + ((k:ℚ)+1)) := by
              have := hq (k+1) (by omega)
              push_cast at this ⊢
              linarith
            rw [if_neg (fun h => hnext h.1), if_neg (by linarith), if_neg hnext]

/-- A `disputed` claim fed perfect evidence forever: the evidence grows,
but the status never leaves `disputed` (the `verified` branch demands an
`unverified` status, and the confidence stays at 1, so the `false` branch
never fires either). -/
theorem addEvidenceIter_disputedOne (k : ℕ) :
    (Knowledge.addEvidenceIter Knowledge.perfectEvidence k Fixtures.disputedOne).evidence =
      List.replicate k Knowledge.perfectEvidence ∧
    (Knowledge.addEvidenceIter Knowledge.perfectEvidence k
        Fixtures.disputedOne).verificationStatus = .disputed := by
  induction k with
  | zero => exact ⟨rfl, rfl⟩
  | succ k ih =>
      obtain ⟨ihev, ihstat⟩ := ih
      have h1 : Knowledge.addEvidenceIter Knowledge.perfectEvidence (k+1) Fixtures.disputedOne =
          Knowledge.updateClaim
            (Knowledge.addEvidenceIter Knowledge.perfectEvidence k Fixtures.disputedOne)
            Knowledge.perfectEvidence := rfl
      have hev : (Knowledge.addEvidenceIter Knowledge.perfectEvidence (k+1)
          Fixtures.disputedOne).evidence = List.replicate (k+1) Knowledge.perfectEvidence := by
        rw [h1, updateClaim_evidence, ihev, ← List.replicate_succ']
      have hcc : Knowledge.calculateClaimConfidence
          { Knowledge.addEvidenceIter Knowledge.perfectEvidence k Fixtures.disputedOne with
            evidence := (Knowledge.addEvidenceIter Knowledge.perfectEvidence k
              Fixtures.disputedOne).evidence ++ [Knowledge.perfectEvidence] } = 1 := by
        have h := calc_conf_replicate Fixtures.disputedOne
          { Knowledge.addEvidenceIter Knowledge.perfectEvidence k Fixtures.disputedOne with
            evidence := (Knowledge.addEvidenceIter Knowledge.perfectEvidence k
              Fixtures.disputedOne).evidence ++ [Knowledge.perfectEvidence] } (k+1)
          (by
            dsimp only
            rw [ihev, ← List.replicate_succ']
            rfl)
          (by simp [Fixtures.disputedOne]) (by omega)
        rw [h]
        simp [Fixtures.disputedOne]
        exact div_self (by positivity)
      refine ⟨hev, ?_⟩
      rw [h1, updateClaim_status, hcc, ihstat]
      rw [if_neg (fun h => Knowledge.VerificationStatus.noConfusion h.2),
          if_neg (by norm_num)]

/-- Claim C6 counterexample: the round-trip claim quantifies over every
stored claim, but a `disputed` claim never reaches `verified` no matter
how often perfect evidence is added, because the promotion branch
requires the status to be `unverified`. -/
theorem claim_C6_counterexample :
    ¬ (∀ c : Knowledge.KnowledgeClaim, Knowledge.roundTripProperty c) := by
  intro h
  obtain ⟨K, hK⟩ := (h Fixtures.disputedOne).2
  have hstat := hK K le_rfl
  rw [(addEvidenceIter_disputedOne K).2] at hstat
  exact Knowledge.VerificationStatus.noConfusion hstat

/-- Claim C6 (amended): for every stored claim that is currently
`unverified`, whose existing evidence products are non-negative and
average at most 1 (in particular, scores in `[0,1]`), and whose first
recomputed mean does not fall below the 0.3 demotion threshold, the
repeated perfect-evidence update makes the confidence converge to 1.0
and the status reach `verified` and stay there. -/
theorem claim_C6_roundtrip (c : Knowledge.KnowledgeClaim)
    (hstatus : c.verificationStatus = .unverified)
    (hS0 : 0 ≤ (c.evidence.map fun ev => ev.credibilityScore * ev.relevanceScore).sum)
    (hSn : (c.evidence.map fun ev => ev.credibilityScore * ev.relevanceScore).sum ≤
      (c.evidence.length : ℚ))
    (hfirst : 3/10 ≤
      ((c.evidence.map fun ev => ev.credibilityScore * ev.relevanceScore).sum + 1) /
        ((c.evidence.length : ℚ) + 1)) :
    Knowledge.roundTripProperty c := by
  have hclosed := c6_closed_form c hstatus hSn hfirst
  constructor
  · intro ε hε
    refine ⟨max 1 (Nat.ceil (((c.evidence.length : ℚ) + 1) / ε) + 1), ?_⟩
    intro k hk
    have hk1 : 1 ≤ k := le_trans (le_max_left _ _) hk
    obtain ⟨-, hconf, -⟩ := hclosed k hk1
    rw [hconf]
    have hn0 : (0:ℚ) ≤ (c.evidence.length : ℚ) := by positivity
    have hkpos : (0:ℚ) < (k:ℚ) := by exact_mod_cast hk1
    have hden : (0:ℚ) < (c.evidence.length : ℚ) + (k:ℚ) := by linarith
    have hkc : (((c.evidence.length : ℚ) + 1) / ε) < (k:ℚ) := by
      have h2 : Nat.ceil (((c.evidence.length : ℚ) + 1) / ε) + 1 ≤ k :=
        le_trans (le_max_right _ _) hk
      have h3 : (((c.evidence.length : ℚ) + 1) / ε) ≤
          (Nat.ceil (((c.evidence.length : ℚ) + 1) / ε) : ℚ) := Nat.le_ceil _
      have h4 : ((Nat.ceil (((c.evidence.length : ℚ) + 1) / ε) + 1 : ℕ) : ℚ) ≤ (k:ℚ) := by
        exact_mod_cast h2
      push_cast at h4
      linarith
    have hek : (c.evidence.length : ℚ) + 1 < ε * k := by
      rw [div_lt_iff₀ hε] at hkc
      linarith [mul_comm (k:ℚ) ε]
    have hen : 0 ≤ ε * (c.evidence.length : ℚ) := mul_nonneg hε.le hn0
    have key : 1 -
        ((c.evidence.map fun ev => ev.credibilityScore * ev.relevanceScore).sum + (k:ℚ)) /
          ((c.evidence.length : ℚ) + (k:ℚ)) =
        ((c.evidence.length : ℚ) -
          (c.evidence.map fun ev => ev.credibilityScore * ev.relevanceScore).sum) /
          ((c.evidence.length : ℚ) + (k:ℚ)) := by
      field_simp
    rw [sub_lt_iff_lt_add, ← sub_lt_iff_lt_add', key, div_lt_iff₀ hden]
    linarith [hS0, hek, hen]
  · refine ⟨max 1 (4 * c.evidence.length + 1), ?_⟩
    intro k hk
    have hk1 : 1 ≤ k := le_trans (le_max_left _ _) hk
    obtain ⟨-, -, hstat⟩ := hclosed k hk1
    have hkq : (4 * (c.evidence.length:ℚ) + 1) ≤ (k:ℚ) := by
      have hK : 4 * c.evidence.length + 1 ≤ k := le_trans (le_max_right _ _) hk
      exact_mod_cast hK
    have hk1q : (1:ℚ) ≤ (k:ℚ) := by exact_mod_cast hk1
    have hn0 : (0:ℚ) ≤ (c.evidence.length : ℚ) := by positivity
    have hden : (0:ℚ) < (c.evidence.length:ℚ) + (k:ℚ) := by linarith
    have h8 : 8/10 <
        ((c.evidence.map fun ev => ev.credibilityScore * ev.relevanceScore).sum + (k:ℚ)) /
          ((c.evidence.length : ℚ) + (k:ℚ)) := by
      rw [lt_div_iff₀ hden]
      linarith [hS0, hkq]
    rw [hstat, if_pos h8]

/-- Claim C6 witness: the amended round-trip property holds of a concrete
`unverified` claim with empty evidence. -/
theorem claim_C6_witness : Knowledge.roundTripProperty Fixtures.unverifiedClaim :=
  claim_C6_roundtrip Fixtures.unverifiedClaim rfl
    (by simp [Fixtures.unverifiedClaim])
    (by simp [Fixtures.unverifiedClaim])
    (by norm_num [Fixtures.unverifiedClaim])

/-! ## C8 — short-term → long-term consolidation -/

/-- The `strengthenMemory` never changes the size of long-term storage. -/
theorem strengthenMemory_length (storage : List Memory.MemoryItem)
    (item : Memory.MemoryItem) :
    (Memory.strengthenMemory storage item).length = storage.length := by
  unfold Memory.strengthenMemory
  cases h : Memory.ltmRetrieve storage item.content with
  | nil => rfl
  | cons x xs => exact updateFirst_length _ _ _

/-- The consolidation walk never takes the store branch: the
`consolidated` count stays at its initial value and the long-term storage
never grows. -/
theorem consolidate_foldl_invariant (items : List Memory.MemoryItem) :
    ∀ (a b : ℕ) (ltm : List Memory.MemoryItem),
      (items.foldl Memory.consolidateStep (a, b, ltm)).1 = a ∧
      (items.foldl Memory.consolidateStep (a, b, ltm)).2.2.length = ltm.length := by
  induction items with
  | nil => intro a b ltm; exact ⟨rfl, rfl⟩
  | cons x xs ih =>
      intro a b ltm
      have hstep : Memory.consolidateStep (a, b, ltm) x =
          (a, b + 1, Memory.strengthenMemory ltm x) := by
        unfold Memory.consolidateStep Memory.jsArrayTruthy
        simp
      rw [List.foldl_cons, hstep]
      refine ⟨(ih a (b+1) (Memory.strengthenMemory ltm x)).1, ?_⟩
      rw [(ih a (b+1) (Memory.strengthenMemory ltm x)).2]
      exact strengthenMemory_length ltm x

/-- Claim C8 (code bug): because a JS array — even an empty one — is
truthy, `consolidate` never executes its "Move to long-term memory"
branch: for every input the `consolidated` count is 0 and long-term
storage never gains an item.  Concretely, a short-term item with
importance 0.7 (a consolidation candidate) and an empty long-term store
is removed from short-term memory and stored nowhere: it is lost from
both stores, contradicting the claim that every candidate is either
stored or merged. -/
theorem claim_C8_consolidation :
    (∀ (now : ℕ) (st lt : List Memory.MemoryItem),
      (Memory.consolidate now st lt).1.consolidated = 0 ∧
      (Memory.consolidate now st lt).2.2.length = lt.length) ∧
    Memory.shouldConsolidate 0 Fixtures.alphaItem = true ∧
    Memory.consolidate 0 [Fixtures.alphaItem] [] =
      ({ consolidated := 0, strengthened := 1 }, [], []) := by
  have hgen : ∀ (now : ℕ) (st lt : List Memory.MemoryItem),
      (Memory.consolidate now st lt).1.consolidated = 0 ∧
      (Memory.consolidate now st lt).2.2.length = lt.length := by
    intro now st lt
    unfold Memory.consolidate
    exact ⟨(consolidate_foldl_invariant _ 0 0 lt).1,
           (consolidate_foldl_invariant _ 0 0 lt).2⟩
  have hshould : Memory.shouldConsolidate 0 Fixtures.alphaItem = true := by
    unfold Memory.shouldConsolidate
    norm_num [Fixtures.alphaItem]
  refine ⟨hgen, hshould, ?_⟩
  unfold Memory.consolidate
  rw [show List.filter (Memory.shouldConsolidate 0) [Fixtures.alphaItem] =
      [Fixtures.alphaItem] by simp [hshould]]
  rw [show List.filter (fun item => !Memory.shouldConsolidate 0 item) [Fixtures.alphaItem] =
      ([] : List Memory.MemoryItem) by simp [hshould]]
  dsimp only
  rw [show List.foldl Memory.consolidateStep (0, 0, ([] : List Memory.MemoryItem))
      [Fixtures.alphaItem] = (0, 1, ([] : List Memory.MemoryItem)) by
    simp [Memory.consolidateStep, Memory.jsArrayTruthy, Memory.strengthenMemory,
      Memory.ltmRetrieve]]

/-! ## Orchestrator invariants (C1, C10) -/

/-- The `x || d` with a positive default is positive. -/
theorem jsOrDefault_pos (o : Option ℕ) (d : ℕ) (hd : 1 ≤ d) :
    1 ≤ Orchestrator.jsOrDefault o d := by
  cases o with
  | none => exact hd
  | some v =>
      by_cases h : v = 0
      · simpa [Orchestrator.jsOrDefault, h] using hd
      · simpa [Orchestrator.jsOrDefault, h] using Nat.one_le_iff_ne_zero.mpr h

/-- An iteration dispatches at most 4 search terms: the original query
plus the top 3 pending questions, before the explored-query filter. -/
theorem generateSearchQueries_length (s : Orchestrator.ResearchSession) :
    (Orchestrator.generateSearchQueries s).length ≤ 4 := by
  unfold Orchestrator.generateSearchQueries
  refine le_trans (List.length_filter_le _ _) ?_
  simp only [List.length_append, List.length_cons, List.length_nil, List.length_map]
  have := List.length_take_le 3
    (s.memory.pendingQuestions.mergeSort (fun a b => decide (b.priority ≤ a.priority)))
  omega

/-- When the `while` guard passes, every counter is strictly below its
ceiling. -/
theorem shouldContinue_bounds (s : Orchestrator.ResearchSession)
    (h : Orchestrator.shouldContinueResearch s = true) :
    s.budget.usedTimeMs < s.budget.maxTimeMs ∧
    s.budget.usedApiCalls < s.budget.maxApiCalls ∧
    s.budget.usedTokens < s.budget.maxTokens ∧
    s.currentIteration < s.maxIterations := by
  unfold Orchestrator.shouldContinueResearch at h
  split_ifs at h with h1 h2 h3 h4 h5 <;> simp_all

/-- The initial state satisfies the budget invariant. -/
theorem initState_inv (sessionId query : String) (options : Orchestrator.SessionOptions) :
    Orchestrator.BudgetInv (Orchestrator.initState sessionId query options) := by
  unfold Orchestrator.BudgetInv Orchestrator.initState Orchestrator.startResearchSession
  refine ⟨Nat.zero_le _, rfl, jsOrDefault_pos _ _ (by omega), ?_⟩
  dsimp only
  omega

/-- One action preserves the budget invariant. -/
theorem applyAction_inv (st : Orchestrator.OrchState) (a : Orchestrator.Action)
    (h : Orchestrator.BudgetInv st) : Orchestrator.BudgetInv (Orchestrator.applyAction st a) := by
  obtain ⟨hiter, htok, hmax, hphase⟩ := h
  cases a with
  | stop =>
      show Orchestrator.BudgetInv (Orchestrator.stopSession st).2
      unfold Orchestrator.stopSession
      split_ifs with hs
      · exact ⟨hiter, htok, hmax, hphase⟩
      · exact ⟨hiter, htok, hmax, hphase⟩
  | step input =>
      show Orchestrator.BudgetInv (Orchestrator.loopStep st input)
      obtain ⟨s, phase, events⟩ := st
      cases phase with
      | atCheck =>
          unfold Orchestrator.loopStep
          dsimp only at hiter htok hmax hphase ⊢
          by_cases hc : Orchestrator.shouldContinueResearch s = true
          · rw [if_pos hc]
            have hb := shouldContinue_bounds s hc
            have h4 := generateSearchQueries_length
              { s with currentIteration := s.currentIteration + 1,
                       status := Orchestrator.SessionStatus.searching }
            refine ⟨?_, htok, hmax, ?_⟩
            · dsimp only
              omega
            · dsimp only
              omega
          · rw [if_neg hc]
            exact ⟨hiter, htok, hmax, hphase⟩
      | searching pending collected =>
          cases pending with
          | nil =>
              unfold Orchestrator.loopStep
              dsimp only at hphase ⊢
              simp only [List.length_nil] at hphase
              exact ⟨hiter, htok, hmax, by dsimp only; omega⟩
          | cons q rest =>
              unfold Orchestrator.loopStep
              dsimp only at hphase ⊢
              simp only [List.length_cons] at hphase
              cases input.searchResult with
              | none =>
                  refine ⟨hiter, htok, hmax, ?_⟩
                  dsimp only
                  omega
              | some found =>
                  refine ⟨hiter, htok, hmax, ?_⟩
                  dsimp only
                  omega
      | processing sources =>
          unfold Orchestrator.loopStep
          dsimp only at hphase ⊢
          split_ifs with hg
          · exact ⟨hiter, htok, hmax, hphase⟩
          · exact ⟨hiter, htok, hmax, hphase⟩
      | finished =>
          exact ⟨hiter, htok, hmax, hphase⟩

/-- Every run from a state satisfying the invariant stays inside it. -/
theorem run_inv (acts : List Orchestrator.Action) :
    ∀ st : Orchestrator.OrchState, Orchestrator.BudgetInv st →
      Orchestrator.BudgetInv (Orchestrator.run st acts) := by
  induction acts with
  | nil => intro st h; exact h
  | cons a rest ih =>
      intro st h
      exact ih _ (applyAction_inv st a h)

/-- Runs compose along list append. -/
theorem run_append (st : Orchestrator.OrchState) (l₁ l₂ : List Orchestrator.Action) :
    Orchestrator.run st (l₁ ++ l₂) = Orchestrator.run (Orchestrator.run st l₁) l₂ := by
  induction l₁ generalizing st with
  | nil => rfl
  | cons a rest ih => exact ih (Orchestrator.applyAction st a)

/-- The invariant bounds the API-call counter in every phase. -/
theorem budgetInv_api (st : Orchestrator.OrchState) (h : Orchestrator.BudgetInv st) :
    st.session.budget.usedApiCalls ≤ st.session.budget.maxApiCalls + 3 := by
  obtain ⟨-, -, -, h4⟩ := h
  obtain ⟨s, phase, events⟩ := st
  cases phase <;> dsimp only at h4 ⊢ <;> omega

/-- Claim C1 (amended): over every run of the orchestrator (all provider
behaviours, all stop calls), the iteration counter never exceeds
`maxIterations`, and whenever the `while` guard passes all four counters
are strictly below their ceilings — the loop re-checks before each
iteration and so stops at an iteration boundary; but *within* an
iteration `executeSearch` increments the API counter once per term
without re-checking, so `usedApiCalls` can overshoot `maxApiCalls` by up
to 3 (the search fan-out is at most 4 terms), and that overshoot bound is
all the code guarantees. -/
theorem claim_C1_budget (sessionId query : String) (options : Orchestrator.SessionOptions)
    (acts : List Orchestrator.Action) :
    (Orchestrator.run (Orchestrator.initState sessionId query options) acts).session.currentIteration ≤
      (Orchestrator.run (Orchestrator.initState sessionId query options) acts).session.maxIterations ∧
    (Orchestrator.run (Orchestrator.initState sessionId query options) acts).session.budget.usedApiCalls ≤
      (Orchestrator.run (Orchestrator.initState sessionId query options) acts).session.budget.maxApiCalls + 3 ∧
    (Orchestrator.shouldContinueResearch
        (Orchestrator.run (Orchestrator.initState sessionId query options) acts).session = true →
      (Orchestrator.run (Orchestrator.initState sessionId query options) acts).session.budget.usedTimeMs <
        (Orchestrator.run (Orchestrator.initState sessionId query options) acts).session.budget.maxTimeMs ∧
      (Orchestrator.run (Orchestrator.initState sessionId query options) acts).session.budget.usedApiCalls <
        (Orchestrator.run (Orchestrator.initState sessionId query options) acts).session.budget.maxApiCalls ∧
      (Orchestrator.run (Orchestrator.initState sessionId query options) acts).session.budget.usedTokens <
        (Orchestrator.run (Orchestrator.initState sessionId query options) acts).session.budget.maxTokens ∧
      (Orchestrator.run (Orchestrator.initState sessionId query options) acts).session.currentIteration <
        (Orchestrator.run (Orchestrator.initState sessionId query options) acts).session.maxIterations) := by
  have hinv := run_inv acts _ (initState_inv sessionId query options)
  exact ⟨hinv.1, budgetInv_api _ hinv, fun hc => shouldContinue_bounds _ hc⟩

/-- Claim C1 witness: at the freshly started session the guard passes and
the API counter is strictly below its ceiling. -/
theorem claim_C1_witness :
    Orchestrator.shouldContinueResearch
      (Orchestrator.run (Orchestrator.initState "sess" "q" Fixtures.opts2) []).session = true ∧
    (Orchestrator.run (Orchestrator.initState "sess" "q" Fixtures.opts2) []).session.budget.usedApiCalls <
      (Orchestrator.run (Orchestrator.initState "sess" "q" Fixtures.opts2) []).session.budget.maxApiCalls := by
  have hg : Orchestrator.shouldContinueResearch
      (Orchestrator.run (Orchestrator.initState "sess" "q" Fixtures.opts2) []).session = true := rfl
  exact ⟨hg, ((claim_C1_budget "sess" "q" Fixtures.opts2 []).2.2 hg).2.1⟩

/-! ## C10 — usedTokens is never incremented -/

/-- Claim C10: in every reachable state of every session, `usedTokens` is
still 0 — no orchestrator operation writes it — and it is strictly below
`maxTokens` (whose `||`-default construction makes it at least 1), so the
token check of `shouldContinueResearch` can never be the condition that
ends the loop. -/
theorem claim_C10_usedTokens (sessionId query : String)
    (options : Orchestrator.SessionOptions) (acts : List Orchestrator.Action) :
    (Orchestrator.run (Orchestrator.initState sessionId query options) acts).session.budget.usedTokens = 0 ∧
    (Orchestrator.run (Orchestrator.initState sessionId query options) acts).session.budget.usedTokens <
      (Orchestrator.run (Orchestrator.initState sessionId query options) acts).session.budget.maxTokens := by
  have hinv := run_inv acts _ (initState_inv sessionId query options)
  refine ⟨hinv.2.1, ?_⟩
  have h1 := hinv.2.1
  have h2 := hinv.2.2.1
  omega

/-! ## C1/C2 — the concrete over-budget and stop traces -/

/-- The first three steps of the trace, evaluated: iteration 1 has
dispatched its single search term. -/
theorem run_stateProcessing :
    Orchestrator.run (Orchestrator.initState "sess" "q" Fixtures.opts2)
      [.step Fixtures.inNone, .step Fixtures.inFound, .step Fixtures.inNone] =
    Fixtures.stateProcessing := by
  show Orchestrator.loopStep (Orchestrator.loopStep (Orchestrator.loopStep
    (Orchestrator.initState "sess" "q" Fixtures.opts2) Fixtures.inNone)
    Fixtures.inFound) Fixtures.inNone = Fixtures.stateProcessing
  have h1 : Orchestrator.loopStep (Orchestrator.initState "sess" "q" Fixtures.opts2)
      Fixtures.inNone =
      { session :=
          { id := "sess", query := "q"
            budget := { maxTimeMs := 300000, maxApiCalls := 2, maxTokens := 100000,
                        usedTimeMs := 0, usedApiCalls := 0, usedTokens := 0 }
            memory := { discoveredFacts := [], pendingQuestions := [],
                        exploredQueries := [], sources := [] }
            currentIteration := 1, maxIterations := 10, status := .searching }
        phase := .searching ["q"] []
        events := [.sessionStarted, .iterationStarted 1] } := by
    simp only [Orchestrator.initState, Orchestrator.startResearchSession,
      Orchestrator.jsOrDefault, Orchestrator.loopStep, Orchestrator.shouldContinueResearch,
      Orchestrator.generateSearchQueries, Fixtures.opts2, Fixtures.inNone]
    norm_num [List.mergeSort_nil]
  rw [h1]
  exact rfl

/-- Iteration 1 closes: two facts of confidence 0.5 are stored, two
follow-up questions generated, wall time recorded. -/
theorem run_iterationOneTrace :
    Orchestrator.run (Orchestrator.initState "sess" "q" Fixtures.opts2)
      Fixtures.iterationOneTrace = Fixtures.stateAfterIterationOne := by
  have hsplit : Orchestrator.run (Orchestrator.initState "sess" "q" Fixtures.opts2)
      Fixtures.iterationOneTrace =
      Orchestrator.loopStep (Orchestrator.run (Orchestrator.initState "sess" "q" Fixtures.opts2)
        [.step Fixtures.inNone, .step Fixtures.inFound, .step Fixtures.inNone])
        Fixtures.inTwoFacts := rfl
  rw [hsplit, run_stateProcessing]
  have dAA : jsIncludes (jsToLower "alpha")
      (jsToLower ("What additional evidence supports: " ++ jsSubstringTo "alpha" 50 ++ "...?"))
      = false := by decide
  have dAB : jsIncludes (jsToLower "alpha")
      (jsToLower ("What additional evidence supports: " ++ jsSubstringTo "beta" 50 ++ "...?"))
      = false := by decide
  have dBA : jsIncludes (jsToLower "beta")
      (jsToLower ("What additional evidence supports: " ++ jsSubstringTo "alpha" 50 ++ "...?"))
      = false := by decide
  have dBB : jsIncludes (jsToLower "beta")
      (jsToLower ("What additional evidence supports: " ++ jsSubstringTo "beta" 50 ++ "...?"))
      = false := by decide
  norm_num [Orchestrator.loopStep, Fixtures.stateProcessing, Fixtures.inTwoFacts,
    Fixtures.stateAfterIterationOne, Fixtures.questionFor, Fixtures.src1,
    Orchestrator.mkFact, Orchestrator.generateFollowUpQuestions,
    Orchestrator.updateSessionMemory, Orchestrator.evaluateGoalCompletion,
    List.enum, List.enumFrom, List.filter, List.any, List.filterMap_cons,
    List.filterMap_nil, dAA, dAB, dBA, dBB]

/-- Claim C2 (code bug): from the reachable state at the iteration
boundary, `stopSession` returns `true`, but it can only set the status to
`completed` — the status union has no `stopped` member — and the research
loop, which never consults the status, then starts iteration 2 and emits
`iterationStarted 2` *after* the `sessionStopped` event. -/
theorem claim_C2_stopSession :
    Orchestrator.run (Orchestrator.initState "sess" "q" Fixtures.opts2)
      Fixtures.iterationOneTrace = Fixtures.stateAfterIterationOne ∧
    (Orchestrator.stopSession Fixtures.stateAfterIterationOne).1 = true ∧
    (Orchestrator.stopSession Fixtures.stateAfterIterationOne).2.session.status = .completed ∧
    (Orchestrator.stopSession Fixtures.stateAfterIterationOne).2.events =
      Fixtures.stateAfterIterationOne.events ++ [.sessionStopped] ∧
    (Orchestrator.loopStep (Orchestrator.stopSession Fixtures.stateAfterIterationOne).2
        Fixtures.inNone).events =
      (Orchestrator.stopSession Fixtures.stateAfterIterationOne).2.events ++
        [.iterationStarted 2] :=
  ⟨run_iterationOneTrace, rfl, rfl, rfl, rfl⟩

/-- Claim C1 counterexample: a concrete run in which the orchestrator,
with `maxApiCalls = 2`, enters iteration 2 legitimately (1 call used)
and then dispatches both pending-question search terms, pushing
`usedApiCalls` to 3 > 2 between the per-term increments — the claimed
"usedApiCalls ≤ maxApiCalls at every point" invariant fails inside
`executeSearch`. -/
theorem claim_C1_counterexample :
    (Orchestrator.run (Orchestrator.initState "sess" "q" Fixtures.opts2)
        Fixtures.overBudgetTrace).session.budget.usedApiCalls = 3 ∧
    (Orchestrator.run (Orchestrator.initState "sess" "q" Fixtures.opts2)
        Fixtures.overBudgetTrace).session.budget.maxApiCalls = 2 := by
  have hsplit : Orchestrator.run (Orchestrator.initState "sess" "q" Fixtures.opts2)
      Fixtures.overBudgetTrace =
      Orchestrator.run (Orchestrator.run (Orchestrator.initState "sess" "q" Fixtures.opts2)
        Fixtures.iterationOneTrace)
        [.step Fixtures.inNone, .step Fixtures.inFound, .step Fixtures.inFound] := by
    rw [show Fixtures.overBudgetTrace = Fixtures.iterationOneTrace ++
      [.step Fixtures.inNone, .step Fixtures.inFound, .step Fixtures.inFound] from rfl,
      run_append]
  rw [hsplit, run_iterationOneTrace]
  have hdec1 : (decide ((8:ℚ)/10 ≤ 8/10)) = true := by
    rw [decide_eq_true_eq]
  have hdec2 : (decide ((4:ℚ)/5 ≤ 4/5)) = true := by
    rw [decide_eq_true_eq]
  have e1 : ((("What additional evidence supports: " ++ jsSubstringTo "alpha" 50 ++ "...?") :
      String) == "q") = false := by decide
  have e2 : ((("What additional evidence supports: " ++ jsSubstringTo "beta" 50 ++ "...?") :
      String) == "q") = false := by decide
  have h5 : Orchestrator.loopStep Fixtures.stateAfterIterationOne Fixtures.inNone =
      { session :=
          { id := "sess", query := "q"
            budget := { maxTimeMs := 300000, maxApiCalls := 2, maxTokens := 100000,
                        usedTimeMs := 10, usedApiCalls := 1, usedTokens := 0 }
            memory :=
              { discoveredFacts :=
                  [{ id := "fact_" ++ toString 1 ++ "_" ++ toString 0, content := "alpha",
                     confidence := 1/2, sources := ["s1"] },
                   { id := "fact_" ++ toString 1 ++ "_" ++ toString 1, content := "beta",
                     confidence := 1/2, sources := ["s1"] }]
                pendingQuestions := [Fixtures.questionFor 0 "alpha", Fixtures.questionFor 1 "beta"]
                exploredQueries := ["q"]
                sources := [] }
            currentIteration := 2
            maxIterations := 10
            status := .searching }
        phase := .searching
          ["What additional evidence supports: " ++ jsSubstringTo "alpha" 50 ++ "...?",
           "What additional evidence supports: " ++ jsSubstringTo "beta" 50 ++ "...?"] []
        events := [.sessionStarted, .iterationStarted 1, .iterationCompleted 1,
                   .iterationStarted 2] } := by
    norm_num [Orchestrator.loopStep, Fixtures.stateAfterIterationOne,
      Orchestrator.shouldContinueResearch, Orchestrator.generateSearchQueries,
      Fixtures.questionFor, Fixtures.inNone, List.mergeSort, List.contains, List.elem,
      List.filter, hdec1, hdec2, e1, e2]
  have hrun : Orchestrator.run Fixtures.stateAfterIterationOne
      [.step Fixtures.inNone, .step Fixtures.inFound, .step Fixtures.inFound] =
      Orchestrator.run (Orchestrator.loopStep Fixtures.stateAfterIterationOne Fixtures.inNone)
        [.step Fixtures.inFound, .step Fixtures.inFound] := rfl
  rw [hrun, h5]
  exact ⟨rfl, rfl⟩
